import Mathlib

/-!
Verification of the JSAlchemy web-context library: a shallow embedding of
the scoped-context propagation mechanism (`manager.py`, `sync/manager.py`),
the session payload container (`base.py`) and the change-tracking
interceptor (`interceptors.py`), together with theorems settling the
specification claims about them.

Python dictionaries are modelled as association lists with overwriting
insertion, Python sets as duplicate-free insertion into lists, and Python
exceptions as `Except` results.
-/

set_option synthInstance.maxSize 1024

namespace JSAlchemy

/-- Python dict assignment `d[k] = v`: overwrite the binding of `k` if
present, otherwise append it. -/
def aput [DecidableEq α] (k : α) (v : β) : List (α × β) → List (α × β)
  | [] => [(k, v)]
  | (k', v') :: rest =>
      if k' = k then (k, v) :: rest else (k', v') :: aput k v rest

/-- Python dict lookup `d.get(k)`: the value bound to `k`, if any. -/
def afind [DecidableEq α] (k : α) : List (α × β) → Option β
  | [] => none
  | (k', v') :: rest => if k' = k then some v' else afind k rest

/-- Python set update `s.add(x)` / iterated `s.update`: append each element
not already present. -/
def pyAdd [DecidableEq α] (s : List α) (xs : List α) : List α :=
  xs.foldl (fun acc x => if x ∈ acc then acc else acc ++ [x]) s

/-- Python set difference update `s.difference_update(xs)`. -/
def pyDiff [DecidableEq α] (s : List α) (xs : List α) : List α :=
  s.filter (fun x => decide (x ∉ xs))

theorem afind_aput_self [DecidableEq α] (k : α) (v : β) (d : List (α × β)) :
    afind k (aput k v d) = some v := by
  induction d with
  | nil => simp [aput, afind]
  | cons hd tl ih =>
      obtain ⟨k', v'⟩ := hd
      by_cases h : k' = k
      · simp [aput, afind, h]
      · simp [aput, afind, h, ih]

theorem afind_aput_ne [DecidableEq α] (k k' : α) (v : β) (d : List (α × β))
    (h : k' ≠ k) : afind k' (aput k v d) = afind k' d := by
  have hk : k ≠ k' := Ne.symm h
  induction d with
  | nil => simp [aput, afind, hk]
  | cons hd tl ih =>
      obtain ⟨k₀, v₀⟩ := hd
      by_cases h0 : k₀ = k
      · subst h0
        simp [aput, afind, hk]
      · simp [aput, afind, h0, ih]

theorem mem_pyAdd [DecidableEq α] (s xs : List α) (x : α) :
    x ∈ pyAdd s xs ↔ x ∈ s ∨ x ∈ xs := by
  induction xs generalizing s with
  | nil => simp [pyAdd]
  | cons hd tl ih =>
      simp only [pyAdd, List.foldl_cons] at *
      by_cases h : hd ∈ s
      · rw [if_pos h, ih]
        constructor
        · rintro (hs | ht)
          · exact Or.inl hs
          · exact Or.inr (List.mem_cons_of_mem _ ht)
        · rintro (hs | ht)
          · exact Or.inl hs
          · rcases List.mem_cons.mp ht with rfl | ht
            · exact Or.inl h
            · exact Or.inr ht
      · rw [if_neg h, ih]
        constructor
        · rintro (hs | ht)
          · rcases List.mem_append.mp hs with hs | hs
            · exact Or.inl hs
            · exact Or.inr (List.mem_cons.mpr (Or.inl (List.mem_singleton.mp hs)))
          · exact Or.inr (List.mem_cons_of_mem _ ht)
        · rintro (hs | ht)
          · exact Or.inl (List.mem_append.mpr (Or.inl hs))
          · rcases List.mem_cons.mp ht with rfl | ht
            · exact Or.inl (List.mem_append.mpr (Or.inr (List.mem_singleton.mpr rfl)))
            · exact Or.inr ht

theorem mem_pyDiff [DecidableEq α] (s xs : List α) (x : α) :
    x ∈ pyDiff s xs ↔ x ∈ s ∧ x ∉ xs := by
  simp [pyDiff]

/-! ## base.py: the `Storage` session payload

`Storage` is a dict whose attribute reads go through `self.get(item)`
(absent keys give `None`), whose attribute writes store into the mapping
(`self[key] = value`), and whose item reads are plain dict indexing. -/

/-- Python errors surfaced by the embedded operations. -/
inductive PyErr
  | keyError
  | lookupError
  | attributeError
  deriving DecidableEq, Repr

/-- `Storage` from `base.py`: a dict with attribute access delegated to the
mapping. -/
structure Storage where
  data : List (String × Nat)
  deriving DecidableEq, Repr

/-- `Storage.__setattr__`: `self[key] = value`. -/
def Storage.pySetattr (s : Storage) (key : String) (value : Nat) : Storage :=
  ⟨aput key value s.data⟩

/-- `Storage.__getattr__`: `self.get(item)`; `none` models Python `None`. -/
def Storage.pyGetattr (s : Storage) (item : String) : Option Nat :=
  afind item s.data

/-- Dict item read `self[item]`: raises `KeyError` when absent. -/
def Storage.pyGetitem (s : Storage) (item : String) : Except PyErr Nat :=
  match afind item s.data with
  | some v => .ok v
  | none => .error .keyError

/-- Dict item write `self[key] = value`. -/
def Storage.pySetitem (s : Storage) (key : String) (value : Nat) : Storage :=
  ⟨aput key value s.data⟩

/-- `Storage.__init__`: `for name, value in data.items(): setattr(self, name, value)`. -/
def Storage.init (data : List (String × Nat)) : Storage :=
  data.foldl (fun s kv => s.pySetattr kv.1 kv.2) ⟨[]⟩

/-! ## manager.py / sync/manager.py: scoped bindings (`ContextProxy`)

The async `ContextProxy` stores one `ContextVar` per proxy; `update` calls
`var.set`, reads call `var.get()` (which raises `LookupError` when the
variable was never set in the calling context) and then `getattr(obj, item,
None)`. The sync `ContextProxy` resolves `_thread_local.web_context`
(raising `AttributeError` when unset or cleared to `None`) and then the
named attribute on it. -/

/-- A bound context object (a `Request`, `Storage`, session object, ...):
its attribute mapping. -/
structure CtxObj where
  attrs : List (String × Nat)
  deriving DecidableEq, Repr

/-- Async `ContextProxy.__getattr__`: `getattr(self.__var.get(), item, None)`.
`ctx = none` models a context in which the variable was never set. -/
def proxyGetattr (ctx : Option CtxObj) (item : String) : Except PyErr (Option Nat) :=
  match ctx with
  | none => .error .lookupError
  | some o => .ok (afind item o.attrs)

/-- Async `ContextProxy.__setattr__`: `setattr(self.__var.get(), key, value)`. -/
def proxySetattr (ctx : Option CtxObj) (key : String) (value : Nat) :
    Except PyErr CtxObj :=
  match ctx with
  | none => .error .lookupError
  | some o => .ok ⟨aput key value o.attrs⟩

/-- Async `ContextProxy.__getitem__`: `self.__var.get()[item]`. -/
def proxyGetitem (ctx : Option CtxObj) (item : String) : Except PyErr Nat :=
  match ctx with
  | none => .error .lookupError
  | some o =>
      match afind item o.attrs with
      | some v => .ok v
      | none => .error .keyError

/-- The sync manager's `_thread_local.web_context` slot: never assigned in
this thread, cleared to `None` by a scope exit, or bound to a `WebContext`
whose named attributes hold the scope's objects. -/
inductive TLSlot
  | unset
  | cleared
  | bound (wc : List (String × CtxObj))
  deriving Repr

/-- Sync `ContextProxy.__getattr__`:
`getattr(getattr(_thread_local.web_context, self.name), item, None)`. -/
def syncProxyGetattr (slot : TLSlot) (name item : String) :
    Except PyErr (Option Nat) :=
  match slot with
  | .unset => .error .attributeError
  | .cleared => .error .attributeError
  | .bound wc =>
      match afind name wc with
      | none => .error .attributeError
      | some o => .ok (afind item o.attrs)

/-- Sync `ContextProxy.__setattr__` on a non-reserved key. -/
def syncProxySetattr (slot : TLSlot) (name key : String) (value : Nat) :
    Except PyErr CtxObj :=
  match slot with
  | .unset => .error .attributeError
  | .cleared => .error .attributeError
  | .bound wc =>
      match afind name wc with
      | none => .error .attributeError
      | some o => .ok ⟨aput key value o.attrs⟩

/-! ## Scope exit paths (`Context.__aexit__`, `WebContext.__exit__`) -/

/-- The externally observable actions a scope exit performs: whether the
session payload was persisted (`disconnect`), the transaction committed or
rolled back, the ledger dispatched to the callback (`end_transaction`), and
the `is_active` flag updated. -/
structure ExitActions where
  persisted : Bool
  committed : Bool
  rolledBack : Bool
  dispatched : Bool
  deactivated : Bool
  deriving DecidableEq, Repr

/-- `ContextManager.Context.__aexit__` (async `manager.py`): disconnect the
session first; when auto-commit is off, return at once; otherwise commit
and dispatch on the clean path, or roll back on the exception path. -/
def aexitAsync (auto_commit has_interceptor exc : Bool) : ExitActions :=
  if !auto_commit then
    ⟨true, false, false, false, false⟩
  else if !exc then
    ⟨true, true, false, has_interceptor, true⟩
  else
    ⟨true, false, true, false, true⟩

/-- `WebContext.__exit__` (sync `sync/manager.py`): disconnect, commit or
roll back unconditionally, clear the thread-local slot; the sync exit never
dispatches the ledger. -/
def exitSync (exc : Bool) : ExitActions :=
  if !exc then
    ⟨true, true, false, false, true⟩
  else
    ⟨true, false, true, false, true⟩

/-- The effect of the async `Context.__aexit__` on a proxy's `ContextVar`:
none of the `session`/`request`/`db` variables is unset on exit (only the
separate `is_active` proxy is updated, and only when auto-commit is on), so
the variable keeps whatever object the exited scope had bound. -/
def aexitCtxVar (ctx : Option CtxObj) : Option CtxObj := ctx

/-- The effect of the sync `WebContext.__exit__` on the thread-local slot:
`_thread_local.web_context = None`, unconditionally. -/
def exitSyncSlot (_slot : TLSlot) : TLSlot := .cleared

/-! ## Execution contexts: `ContextVar` / thread-local semantics

The async proxies live on `contextvars.ContextVar`s: each task owns a
context mapping variables to values; `var.set` writes only the calling
task's context; `asyncio` tasks are spawned with a copy of the parent's
context. The sync proxies use a per-thread slot; a thread's writes touch
only its own slot. Both are instances of the same step relation: a world of
per-unit contexts where `set` touches only the issuing unit and `spawn`
copies the parent's context into the child. A trace with no `spawn` is the
thread-local model. -/

abbrev TaskId := Nat

/-- One unit's context: variable name to bound value. -/
abbrev Ctx := List (String × Nat)

/-- All concurrently live units' contexts. -/
structure World where
  ctxs : List (TaskId × Ctx)
  deriving Repr

/-- One scheduler-visible event: a `ContextProxy.update` (`var.set`) issued
by unit `t`, or the spawn of unit `child` by `parent` (context copied at
spawn, as `asyncio.create_task` does). -/
inductive COp
  | set (t : TaskId) (n : String) (v : Nat)
  | spawn (parent child : TaskId)
  deriving DecidableEq, Repr

/-- Does the event write unit `t`'s context? -/
def touches (t : TaskId) : COp → Bool
  | .set t' _ _ => decide (t' = t)
  | .spawn _ c => decide (c = t)

def World.step (w : World) : COp → World
  | .set t n v => ⟨aput t (aput n v ((afind t w.ctxs).getD [])) w.ctxs⟩
  | .spawn p c => ⟨aput c ((afind p w.ctxs).getD []) w.ctxs⟩

/-- An interleaving: the events of all units in scheduler order. -/
def World.run (w : World) (ops : List COp) : World :=
  ops.foldl World.step w

/-- A binding lookup by unit `t` (`ContextProxy.__getattr__` resolves
`var.get()` in the caller's own context). -/
def World.getBinding (w : World) (t : TaskId) (n : String) : Option Nat :=
  (afind t w.ctxs).bind (afind n)

theorem step_preserves_other (w : World) (op : COp) (t : TaskId)
    (h : touches t op = false) :
    afind t (w.step op).ctxs = afind t w.ctxs := by
  cases op with
  | set t' n v =>
      simp only [touches, decide_eq_false_iff_not] at h
      simp [World.step, afind_aput_ne _ _ _ _ (Ne.symm h)]
  | spawn p c =>
      simp only [touches, decide_eq_false_iff_not] at h
      simp [World.step, afind_aput_ne _ _ _ _ (Ne.symm h)]

theorem run_preserves_untouched (ops : List COp) (w : World) (t : TaskId)
    (h : ∀ op ∈ ops, touches t op = false) :
    afind t (w.run ops).ctxs = afind t w.ctxs := by
  induction ops generalizing w with
  | nil => rfl
  | cons op rest ih =>
      have hrest := ih (w.step op) (fun o ho => h o (List.mem_cons_of_mem _ ho))
      calc afind t (w.run (op :: rest)).ctxs
          = afind t ((w.step op).run rest).ctxs := rfl
        _ = afind t (w.step op).ctxs := hrest
        _ = afind t w.ctxs := step_preserves_other w op t (h op (List.mem_cons_self _ _))

/-! ## interceptors.py: `ResultData` and `ChangeInterceptor`

Entities are ORM instances: Python compares them by object identity, so an
entity is its model (class), its object id and its (immutable) primary-key
value; mutable column values live outside the identity, supplied to
`update_diff` as a valuation keyed by object id. -/

/-- An ORM entity instance. `oid` is Python object identity; `pk` is the
value of the primary-key attribute (`id`). -/
structure Entity where
  model : Nat
  oid : Nat
  pk : Nat
  deriving DecidableEq, Repr

/-- `attrgetter(pk_name)` applied to an entity: the pk attribute holds the
primary-key value. -/
def Entity.pkValue (e : Entity) : Nat := e.pk

/-- `ResultData.__init__`: the mutation ledger. `delete` and `invalids` map
a model to a set of primary keys; `m2m` is the ordered relationship-op
list `(op, related type name, relationship name, [related_id, owner_id])`. -/
structure ResultData where
  new : List Entity
  update : List Entity
  delete : List (Nat × List Nat)
  extra : List (String × Nat)
  m2m : List (String × String × String × List Nat)
  invalids : List (Nat × List Nat)
  deriving DecidableEq, Repr

/-- A fresh ledger, as built by `start_record`. -/
def ResultData.empty : ResultData := ⟨[], [], [], [], [], []⟩

/-- One iteration of `_on_before_flush`'s deleted-models loop: extend
`delete[m]` with this flush's deleted pks minus the pks of tracked new
entities of `m`, and purge matching entities from `new` and `update`.
`baseNew` is the `new` dict the code computes once before the loop. -/
def flushDeleteStep (sdeleted baseNew : List Entity) (tr : ResultData) (m : Nat) :
    ResultData :=
  let ids := (sdeleted.filter (fun e => decide (e.model = m))).map Entity.pkValue
  let newIds := (baseNew.filter (fun e => decide (e.model = m))).map Entity.pkValue
  { tr with
    delete := aput m (pyAdd ((afind m tr.delete).getD []) (pyDiff ids newIds)) tr.delete,
    new := tr.new.filter (fun x => decide (¬(x.model = m ∧ x.pkValue ∈ ids))),
    update := tr.update.filter (fun x => decide (¬(x.model = m ∧ x.pkValue ∈ ids))) }

/-- The first two stages of `_on_before_flush`: merge the session's dirty
set into `update` (minus tracked new entities, then dropping `update`
members from `new`), and the session's pending-new set into `new`. -/
def flushPre (dirty snew : List Entity) (t : ResultData) : ResultData :=
  let t1 :=
    if dirty = [] then t
    else
      let upd := pyAdd t.update (pyDiff dirty t.new)
      { t with update := upd, new := pyDiff t.new upd }
  if snew = [] then t1 else { t1 with new := pyAdd t1.new snew }

/-- `ChangeInterceptor._on_before_flush`: fold the session's dirty, new and
deleted sets into the ledger. `pks` is the `_pks` registry (model to pk
attribute name); deleted entities of unregistered models are dropped by the
`if model in self._pks` guards, and the remaining deleted models are
processed by `flushDeleteStep` against the `new` dict computed after the
first two stages. -/
def on_before_flush (pks : List (Nat × String)) (dirty snew sdeleted : List Entity)
    (t : ResultData) : ResultData :=
  if sdeleted = [] then flushPre dirty snew t
  else
    (((sdeleted.map (fun e => e.model)).dedup).filter
        (fun m => (afind m pks).isSome)).foldl
      (flushDeleteStep sdeleted (flushPre dirty snew t).new) (flushPre dirty snew t)

/-- A statement seen by `_on_orm_execute`. For update/delete, `matched` is
the result of immediately executing the statement's filter as a primary-key
select against the session. -/
inductive Stmt
  | selectS
  | insertS (table : Nat) (rows : List (List (String × Nat)))
  | updateS (table : Nat) (matched : List Nat)
  | deleteS (table : Nat) (matched : List Nat)
  deriving Repr

/-- The `ChangeInterceptor`'s registration state: the table-to-model index,
the `_pks` registry, and the event listeners wired by `register_model`
(SQLAlchemy keeps every `event.listen` call; duplicates fire twice). -/
structure Interceptor where
  table_to_model : List (Nat × Nat)
  pks : List (Nat × String)
  loadListeners : List Nat
  m2mAddListeners : List (Nat × String)
  m2mDelListeners : List (Nat × String)
  deriving DecidableEq, Repr

/-- A `ChangeInterceptor` with nothing registered. -/
def Interceptor.empty : Interceptor := ⟨[], [], [], [], []⟩

/-- `ChangeInterceptor.register_model`: record the storage identity and pk
accessor, then `event.listen` for load and for append/remove on each
many-to-many relationship. -/
def register_model (i : Interceptor) (model table : Nat) (pkName : String)
    (m2ms : List String) : Interceptor :=
  ⟨aput table model i.table_to_model,
   aput model pkName i.pks,
   i.loadListeners ++ [model],
   i.m2mAddListeners ++ m2ms.map (fun r => (model, r)),
   i.m2mDelListeners ++ m2ms.map (fun r => (model, r))⟩

/-- `ChangeInterceptor._on_orm_execute`: selects pass through, statements
on unregistered tables are ignored; bulk insert synthesizes fresh entities
into `new`; bulk update (resp. delete) creates the model's key in
`invalids` (resp. `delete`) unconditionally and adds every matched pk. -/
def on_orm_execute (i : Interceptor) (r : ResultData) (s : Stmt) (freshOid : Nat) :
    ResultData :=
  match s with
  | .selectS => r
  | .insertS table rows =>
      match afind table i.table_to_model with
      | none => r
      | some model =>
          { r with new := pyAdd r.new (rows.enum.map (fun p =>
              ⟨model, freshOid + p.1, (afind "id" p.2).getD 0⟩)) }
  | .updateS table matched =>
      match afind table i.table_to_model with
      | none => r
      | some model =>
          { r with invalids := (aput model
              (pyAdd ((afind model r.invalids).getD []) matched) r.invalids) }
  | .deleteS table matched =>
      match afind table i.table_to_model with
      | none => r
      | some model =>
          { r with delete := (aput model
              (pyAdd ((afind model r.delete).getD []) matched) r.delete) }

/-- `ChangeInterceptor._load_model`'s snapshot of a loaded instance: all
column values at load time (`vals` is the instance's column valuation). -/
def load_snapshot (cols : Nat → List String) (model : Nat)
    (vals : List (String × Nat)) : List (String × Nat) :=
  (cols model).map (fun a => (a, (afind a vals).getD 0))

/-- Dispatch of the `load` event for instance `e`: SQLAlchemy invokes every
listener registered on `e.model`, each appending one snapshot to
`request.loaded[class]`. -/
def fireLoad (cols : Nat → List String) (i : Interceptor)
    (loaded : List (Nat × List (List (String × Nat)))) (e : Entity)
    (vals : List (String × Nat)) : List (Nat × List (List (String × Nat))) :=
  (i.loadListeners.filter (fun m => decide (m = e.model))).foldl
    (fun l _ =>
      aput e.model ((afind e.model l).getD [] ++ [load_snapshot cols e.model vals]) l)
    loaded

/-- Dispatch of an `append` event on a many-to-many relationship: every
listener registered on that (model, relationship) pair appends one
`('add', type(value).__name__, initiator.key, [value.id, target.id])`
tuple. -/
def fireM2MAdd (i : Interceptor) (typeName : Nat → String) (r : ResultData)
    (model : Nat) (rel : String) (target value : Entity) : ResultData :=
  (i.m2mAddListeners.filter (fun p => decide (p = (model, rel)))).foldl
    (fun tr _ =>
      { tr with m2m := tr.m2m ++ [("add", typeName value.model, rel, [value.pk, target.pk])] })
    r

/-! ## `ResultData.update_diff`

Line by line: `on_load` is built per model as the dict comprehension
`{x['id']: x for x in items}` (later snapshots of the same id overwrite
earlier ones); the updated entities are grouped by model;
`on_load[model]` is a dict lookup that raises `KeyError` when the model was
never loaded; an empty snapshot dict is skipped by `if not load_model:
continue`; `load_model[item.id]` raises `KeyError` when the item's id was
never loaded; per item, columns whose current value differs from the
snapshot form the diff, empty diffs and empty models are dropped. -/

/-- The per-model dict comprehension `{x['id']: x for x in items}`. -/
def snapDict (items : List (List (String × Nat))) :
    List (Nat × List (String × Nat)) :=
  items.foldl (fun d x => aput ((afind "id" x).getD 0) x d) []

/-- One updated item's diff: columns whose current value (under the
valuation `vals` of object ids to column values) differs from the recorded
snapshot. -/
def diffOne (cols : Nat → List String) (vals : Nat → List (String × Nat))
    (snap : List (String × Nat)) (item : Entity) : List (String × Nat) :=
  (cols item.model).filterMap (fun a =>
    let v := (afind a (vals item.oid)).getD 0
    if (afind a snap).getD 0 = v then none else some (a, v))

/-- The inner loop of `update_diff` over one model's updated items. -/
def update_diff_items (cols : Nat → List String) (vals : Nat → List (String × Nat))
    (dict : List (Nat × List (String × Nat))) :
    List Entity → Except PyErr (List (Nat × List (String × Nat)))
  | [] => .ok []
  | item :: rest =>
      match afind item.pk dict with
      | none => .error .keyError
      | some snap =>
          match update_diff_items cols vals dict rest with
          | .error e => .error e
          | .ok restR =>
              let d := diffOne cols vals snap item
              .ok (if d = [] then restR else (item.pk, d) :: restR)

/-- The outer loop of `update_diff` over the models of the updated set. -/
def update_diff_go (cols : Nat → List String) (vals : Nat → List (String × Nat))
    (onLoad : List (Nat × List (Nat × List (String × Nat)))) (upd : List Entity) :
    List Nat → Except PyErr (List (Nat × List (Nat × List (String × Nat))))
  | [] => .ok []
  | m :: rest =>
      match afind m onLoad with
      | none => .error .keyError
      | some dict =>
          if dict = [] then update_diff_go cols vals onLoad upd rest
          else
            match update_diff_items cols vals dict
                (upd.filter (fun e => decide (e.model = m))) with
            | .error e => .error e
            | .ok entries =>
                match update_diff_go cols vals onLoad upd rest with
                | .error e => .error e
                | .ok restR =>
                    .ok (if entries = [] then restR else (m, entries) :: restR)

/-- `ResultData.update_diff`: field-level diffs for the updated entities,
against the snapshots recorded at load. -/
def update_diff (cols : Nat → List String) (vals : Nat → List (String × Nat))
    (upd : List Entity) (loaded : List (Nat × List (List (String × Nat)))) :
    Except PyErr (List (Nat × List (Nat × List (String × Nat)))) :=
  let onLoad := loaded.map (fun p => (p.1, snapDict p.2))
  update_diff_go cols vals onLoad upd ((upd.map (fun e => e.model)).dedup)

/-- Modelled from the spec's words, for comparison with `snapDict`: "Only
the first snapshot per identity is kept (earliest-seen baseline)" — keep
the first snapshot of each id instead of overwriting. -/
def snapDictSpecFirst (items : List (List (String × Nat))) :
    List (Nat × List (String × Nat)) :=
  items.foldl (fun d x =>
    let k := (afind "id" x).getD 0
    if afind k d = none then aput k x d else d) []

/-- The spec's variant of `update_diff` with the earliest-seen baseline,
for comparison with the source's `update_diff`. -/
def update_diff_specFirst (cols : Nat → List String)
    (vals : Nat → List (String × Nat)) (upd : List Entity)
    (loaded : List (Nat × List (List (String × Nat)))) :
    Except PyErr (List (Nat × List (Nat × List (String × Nat)))) :=
  let onLoad := loaded.map (fun p => (p.1, snapDictSpecFirst p.2))
  update_diff_go cols vals onLoad upd ((upd.map (fun e => e.model)).dedup)

/-! ## The scope's ledger lifecycle

`start_record` installs a fresh `ResultData` at scope entry;
`after_soft_rollback` re-runs `start_record`; a mid-scope `commit` has no
listener and leaves the ledger alone; the exit commit of an auto-commit
scope runs `end_transaction`, which hands the current ledger to the
callback without resetting it. -/

/-- The ledger-visible state of one scope: the current `ResultData` and the
ledgers dispatched to the callback so far. -/
structure ScopeState where
  result : ResultData
  dispatchLog : List ResultData
  deriving DecidableEq, Repr

/-- One ledger-relevant event inside a scope. -/
inductive SEv
  | flush (dirty snew sdeleted : List Entity)
  | commitMid
  | rollback
  | exitCommit
  deriving Repr

/-- The effect of one event on the scope's ledger state. -/
def scopeStep (pks : List (Nat × String)) (s : ScopeState) : SEv → ScopeState
  | .flush dirty snew sdeleted =>
      { s with result := on_before_flush pks dirty snew sdeleted s.result }
  | .commitMid => s
  | .rollback => { s with result := ResultData.empty }
  | .exitCommit => { s with dispatchLog := s.dispatchLog ++ [s.result] }

def scopeRun (pks : List (Nat × String)) (s : ScopeState) (evs : List SEv) :
    ScopeState :=
  evs.foldl (scopeStep pks) s

/-- The new/deleted mutual-exclusion predicate of the claimed ledger
invariant: no tracked new entity's identity also sits in `delete`. -/
def disjointNewDelete (r : ResultData) : Prop :=
  ∀ e ∈ r.new, e.pk ∉ (afind e.model r.delete).getD []

instance (r : ResultData) : Decidable (disjointNewDelete r) := by
  unfold disjointNewDelete
  infer_instance

/-! ## Further dictionary lemmas -/

theorem aput_aput_self [DecidableEq α] (k : α) (v : β) (d : List (α × β)) :
    aput k v (aput k v d) = aput k v d := by
  induction d with
  | nil => simp [aput]
  | cons hd tl ih =>
      obtain ⟨k', v'⟩ := hd
      by_cases h : k' = k
      · simp [aput, h]
      · simp [aput, h, ih]

theorem afind_map_snd [DecidableEq α] (f : β → γ) (k : α) (l : List (α × β)) :
    afind k (l.map (fun p => (p.1, f p.2))) = (afind k l).map f := by
  induction l with
  | nil => simp [afind]
  | cons hd tl ih =>
      obtain ⟨k', v'⟩ := hd
      by_cases h : k' = k
      · simp [afind, h]
      · simp [afind, h, ih]

end JSAlchemy

deriving instance DecidableEq for Except

namespace JSAlchemy

/-! ## Claim theorems -/

/-- C2 counterexample: a scope exited with an exception pending while the
auto-commit policy is disabled (async `ContextManager.Context.__aexit__`,
which returns right after `disconnect` when `auto_commit` is off) does not
roll the transaction back, contrary to the claim that rollback happens for
every configuration. -/
theorem claim_C2_counterexample :
    (aexitAsync false false true).rolledBack = false := by decide

/-- C2 (amended): on every exceptional scope exit the session payload is
persisted and the ledger is not dispatched; the transaction is rolled back
exactly when auto-commit is enabled in the async manager (with auto-commit
disabled the async exit neither commits nor rolls back), and always in the
sync manager. -/
theorem claim_C2_amended_exit :
    ∀ ac hi : Bool,
      (aexitAsync ac hi true).persisted = true ∧
      (aexitAsync ac hi true).dispatched = false ∧
      (aexitAsync ac hi true).rolledBack = ac ∧
      (aexitAsync ac hi true).committed = false ∧
      (exitSync true).persisted = true ∧
      (exitSync true).rolledBack = true ∧
      (exitSync true).dispatched = false := by decide

/-- C5 counterexample: in an execution context where no scope was ever
active, an attribute read through the async proxy raises `LookupError`
(`ContextVar.get` with no default), an item read raises too, and the sync
proxy raises `AttributeError` — rather than returning an absence marker as
the claim states. -/
theorem claim_C5_counterexample :
    proxyGetattr none "user" = .error .lookupError ∧
    proxyGetitem none "user" = .error .lookupError ∧
    syncProxyGetattr .unset "session" "user" = .error .attributeError := by
  exact ⟨rfl, rfl, rfl⟩

/-- C5 (amended): how a binding read or write behaves with no scope active
depends on how the context got there. In a context where the binding was
never established, reads fail just like writes (`LookupError` from
`ContextVar.get` with no default in the async manager, `AttributeError` in
the sync manager), rather than returning an absence marker. After a scope
exits, the sync manager clears the thread-local slot, so the same
`AttributeError` follows on that thread; the async `__aexit__` never unsets
the proxies' `ContextVar`s, so in that context reads resolve against the
stale object the exited scope had bound and return its (stale) attribute
value — or `None` for an attribute missing on it — without raising. -/
theorem claim_C5_amended_no_scope (item key : String) (value : Nat)
    (o : CtxObj) (s : TLSlot) :
    proxyGetattr none item = .error .lookupError ∧
    proxySetattr none key value = .error .lookupError ∧
    proxyGetitem none item = .error .lookupError ∧
    syncProxyGetattr .unset key item = .error .attributeError ∧
    syncProxySetattr .unset key item value = .error .attributeError ∧
    syncProxyGetattr (exitSyncSlot s) key item = .error .attributeError ∧
    syncProxySetattr (exitSyncSlot s) key item value = .error .attributeError ∧
    proxyGetattr (aexitCtxVar (some o)) item = .ok (afind item o.attrs) :=
  ⟨rfl, rfl, rfl, rfl, rfl, rfl, rfl, rfl⟩

/-- C9: a bulk update statement against a registered storage identity
creates the model's key in `invalids` unconditionally (present even with
zero matched rows) and adds every primary key matched by the filter. -/
theorem claim_C9_bulk_update (i : Interceptor) (r : ResultData)
    (table model freshOid : Nat) (matched : List Nat)
    (hreg : afind table i.table_to_model = some model) :
    ∃ s, afind model (on_orm_execute i r (.updateS table matched) freshOid).invalids
        = some s ∧ ∀ k ∈ matched, k ∈ s := by
  refine ⟨pyAdd ((afind model r.invalids).getD []) matched, ?_, ?_⟩
  · simp [on_orm_execute, hreg, afind_aput_self]
  · intro k hk
    exact (mem_pyAdd _ _ _).mpr (Or.inr hk)

theorem claim_C9_witness :
    afind 0 (register_model Interceptor.empty 0 0 "id" []).table_to_model = some 0 ∧
    (∃ s, afind 0 (on_orm_execute (register_model Interceptor.empty 0 0 "id" [])
        ResultData.empty (.updateS 0 []) 99).invalids = some s ∧ ∀ k ∈ ([] : List Nat), k ∈ s) ∧
    (∃ s, afind 0 (on_orm_execute (register_model Interceptor.empty 0 0 "id" [])
        ResultData.empty (.updateS 0 [5]) 99).invalids = some s ∧ ∀ k ∈ [5], k ∈ s) := by
  refine ⟨by decide, ?_, ?_⟩
  · exact claim_C9_bulk_update (register_model Interceptor.empty 0 0 "id" [])
      ResultData.empty 0 0 99 [] (by decide)
  · exact claim_C9_bulk_update (register_model Interceptor.empty 0 0 "id" [])
      ResultData.empty 0 0 99 [5] (by decide)

/-- C10: on `Storage`, attribute and item access are interchangeable —
after `setattr(s, k, v)` both `s.k` and `s[k]` yield `v` (attribute writes
store into the mapping), and an attribute read of an absent key yields
`None` rather than an error. -/
theorem claim_C10_storage (s : Storage) (k k' : String) (v : Nat)
    (habs : afind k' s.data = none) :
    (s.pySetattr k v).pyGetattr k = some v ∧
    (s.pySetattr k v).pyGetitem k = .ok v ∧
    s.pyGetattr k' = none := by
  refine ⟨?_, ?_, ?_⟩
  · simp [Storage.pySetattr, Storage.pyGetattr, afind_aput_self]
  · simp [Storage.pyGetitem, Storage.pySetattr, afind_aput_self]
  · simp [Storage.pyGetattr, habs]

theorem claim_C10_witness :
    afind "missing" (Storage.mk [("a", 1)]).data = none ∧
    ((Storage.mk [("a", 1)]).pySetattr "name" 7).pyGetattr "name" = some 7 ∧
    ((Storage.mk [("a", 1)]).pySetattr "name" 7).pyGetitem "name" = .ok 7 ∧
    (Storage.mk [("a", 1)]).pyGetattr "missing" = none := by
  have h := claim_C10_storage (Storage.mk [("a", 1)]) "name" "missing" 7 (by decide)
  exact ⟨by decide, h.1, h.2.1, h.2.2⟩

/-- C1: isolation law for scoped bindings. If unit `c` is spawned by `p`
while `p`'s context binds name `n` to `v` (the spawn copies the parent's
context, as `asyncio` task spawning does for the `ContextVar`s backing
`ContextProxy`), then after any interleaving of events none of which writes
`c`'s context — sibling `var.set`s, spawns of other units, and in
particular later mutations of the spawning unit's own bindings — a binding
lookup by `c` still returns `v`, its own spawn-time value, never a
sibling's. A trace without `spawn` events is the sync manager's
thread-local model, so the same theorem covers both scheduling models. -/
theorem claim_C1_context_isolation (w : World) (p c : TaskId) (n : String)
    (v : Nat) (ops : List COp)
    (hv : w.getBinding p n = some v)
    (hops : ∀ op ∈ ops, touches c op = false) :
    ((w.step (.spawn p c)).run ops).getBinding c n = some v := by
  have hrun := run_preserves_untouched ops (w.step (.spawn p c)) c hops
  rw [World.getBinding, hrun]
  rw [World.getBinding] at hv
  cases hp : afind p w.ctxs with
  | none => rw [hp] at hv; simp at hv
  | some ctxp =>
      rw [hp] at hv
      rw [Option.some_bind] at hv
      simp [World.step, afind_aput_self, hp, hv]

theorem claim_C1_witness :
    (World.getBinding ⟨[(0, [("db", 1)])]⟩ 0 "db" = some 1) ∧
    (∀ op ∈ ([.set 0 "db" 2, .spawn 0 2, .set 2 "db" 3] : List COp),
      touches 1 op = false) ∧
    ((World.step ⟨[(0, [("db", 1)])]⟩ (.spawn 0 1)).run
        [.set 0 "db" 2, .spawn 0 2, .set 2 "db" 3]).getBinding 1 "db" = some 1 := by
  refine ⟨by decide, by decide, ?_⟩
  exact claim_C1_context_isolation ⟨[(0, [("db", 1)])]⟩ 0 1 "db" 1
    [.set 0 "db" 2, .spawn 0 2, .set 2 "db" 3] (by decide) (by decide)

/-! ## Concrete fixtures for the remaining claims: one model (number 0)
with columns `id` and `name`, one entity (object id 1, pk 1) whose current
`name` is 10. -/

def testCols : Nat → List String := fun _ => ["id", "name"]

def testVals : Nat → List (String × Nat) :=
  fun o => if o = 1 then [("id", 1), ("name", 10)] else []

theorem afind_snapDict_fold (items : List (List (String × Nat)))
    (d : List (Nat × List (String × Nat))) (i : Nat) :
    afind i (items.foldl (fun d x => aput ((afind "id" x).getD 0) x d) d) =
      match (items.filter (fun x => decide ((afind "id" x).getD 0 = i))).getLast? with
      | some x => some x
      | none => afind i d := by
  induction items using List.reverseRecOn with
  | nil => simp
  | append_singleton init x ih =>
      rw [List.foldl_append, List.filter_append]
      by_cases hx : (afind "id" x).getD 0 = i
      · rw [← hx, List.foldl_cons, List.foldl_nil, afind_aput_self]
        simp [hx, List.getLast?_concat]
      · rw [List.foldl_cons, List.foldl_nil,
          afind_aput_ne _ _ _ _ (fun hh => hx hh.symm)]
        simp [hx, ih]

/-- C7 counterexample: the same identity (pk 1) loaded twice in one epoch,
first with `name = 10`, then with `name = 20`, while the entity's current
`name` is 10. With the claimed earliest-seen baseline the diff would be
empty, but the source's `update_diff` diffs against the later snapshot and
reports `{name: 10}` — the two pipelines disagree on this input. -/
theorem claim_C7_counterexample :
    update_diff testCols testVals [⟨0, 1, 1⟩]
        [(0, [[("id", 1), ("name", 10)], [("id", 1), ("name", 20)]])]
      = .ok [(0, [(1, [("name", 10)])])] ∧
    update_diff_specFirst testCols testVals [⟨0, 1, 1⟩]
        [(0, [[("id", 1), ("name", 10)], [("id", 1), ("name", 20)]])]
      = .ok [] ∧
    update_diff testCols testVals [⟨0, 1, 1⟩]
        [(0, [[("id", 1), ("name", 10)], [("id", 1), ("name", 20)]])]
      ≠ update_diff_specFirst testCols testVals [⟨0, 1, 1⟩]
        [(0, [[("id", 1), ("name", 10)], [("id", 1), ("name", 20)]])] := by
  refine ⟨rfl, rfl, ?_⟩
  decide

/-- C7 (amended): for an identity loaded several times within one epoch,
the diff baseline `update_diff` uses is the snapshot of the latest load of
that identity — the dict comprehension `{x['id']: x for x in items}` lets
each later snapshot overwrite the earlier one. -/
theorem claim_C7_amended_last_snapshot (items : List (List (String × Nat)))
    (i : Nat) :
    afind i (snapDict items) =
      (items.filter (fun x => decide ((afind "id" x).getD 0 = i))).getLast? := by
  have h := afind_snapDict_fold items [] i
  rw [snapDict]
  rw [h]
  cases hL : (items.filter (fun x => decide ((afind "id" x).getD 0 = i))).getLast? with
  | none => simp [afind]
  | some x => rfl

/-- C8 counterexample: after registering the same model twice
(`register_model` calls `event.listen` again each time, and SQLAlchemy
fires duplicate listeners twice), a single load records two snapshots and a
single many-to-many append records two tuples — not one each, as the
idempotence claim requires. -/
theorem claim_C8_counterexample :
    ((afind 0 (fireLoad testCols
        (register_model (register_model Interceptor.empty 0 0 "id" ["other_items"])
          0 0 "id" ["other_items"])
        [] ⟨0, 1, 1⟩ [("id", 1), ("name", 10)])).getD []).length = 2 ∧
    (fireM2MAdd
        (register_model (register_model Interceptor.empty 0 0 "id" ["other_items"])
          0 0 "id" ["other_items"])
        (fun _ => "Item") ResultData.empty 0 "other_items"
        ⟨0, 1, 1⟩ ⟨0, 2, 2⟩).m2m.length = 2 := by
  decide

/-- C8 (amended): `register_model` is idempotent on the model index — the
table-to-model map and the pk-accessor map are unchanged by a second
registration — but each call appends fresh load and many-to-many listeners,
so a doubly registered model records two snapshots per load and two tuples
per relationship op. -/
theorem claim_C8_amended_register_model (i : Interceptor) (model table : Nat)
    (pkName : String) (m2ms : List String) :
    (register_model (register_model i model table pkName m2ms)
        model table pkName m2ms).table_to_model
      = (register_model i model table pkName m2ms).table_to_model ∧
    (register_model (register_model i model table pkName m2ms)
        model table pkName m2ms).pks
      = (register_model i model table pkName m2ms).pks ∧
    (register_model (register_model i model table pkName m2ms)
        model table pkName m2ms).loadListeners
      = (register_model i model table pkName m2ms).loadListeners ++ [model] ∧
    (register_model (register_model i model table pkName m2ms)
        model table pkName m2ms).m2mAddListeners
      = (register_model i model table pkName m2ms).m2mAddListeners
          ++ m2ms.map (fun r => (model, r)) ∧
    (register_model (register_model i model table pkName m2ms)
        model table pkName m2ms).m2mDelListeners
      = (register_model i model table pkName m2ms).m2mDelListeners
          ++ m2ms.map (fun r => (model, r)) := by
  refine ⟨?_, ?_, rfl, rfl, rfl⟩
  · exact aput_aput_self table model i.table_to_model
  · exact aput_aput_self model pkName i.pks

/-! ## Error behaviour of `update_diff` (claim C6) -/

theorem update_diff_items_ok_or_err (cols : Nat → List String)
    (vals : Nat → List (String × Nat)) (dict : List (Nat × List (String × Nat)))
    (its : List Entity) :
    (∃ r, update_diff_items cols vals dict its = .ok r) ∨
      update_diff_items cols vals dict its = .error .keyError := by
  induction its with
  | nil => exact Or.inl ⟨[], rfl⟩
  | cons item rest ih =>
      rw [update_diff_items]
      cases hs : afind item.pk dict with
      | none => exact Or.inr rfl
      | some snap =>
          rcases ih with ⟨r, hr⟩ | hr
          · rw [hr]
            exact Or.inl ⟨_, rfl⟩
          · rw [hr]
            exact Or.inr rfl

theorem update_diff_go_ok_or_err (cols : Nat → List String)
    (vals : Nat → List (String × Nat))
    (onLoad : List (Nat × List (Nat × List (String × Nat)))) (upd : List Entity)
    (models : List Nat) :
    (∃ r, update_diff_go cols vals onLoad upd models = .ok r) ∨
      update_diff_go cols vals onLoad upd models = .error .keyError := by
  induction models with
  | nil => exact Or.inl ⟨[], rfl⟩
  | cons m rest ih =>
      cases hd : afind m onLoad with
      | none =>
          exact Or.inr (by simp only [update_diff_go, hd])
      | some dict =>
          simp only [update_diff_go, hd]
          by_cases hde : dict = []
          · rw [if_pos hde]
            exact ih
          · rw [if_neg hde]
            rcases update_diff_items_ok_or_err cols vals dict
                (upd.filter (fun e => decide (e.model = m))) with ⟨r, hr⟩ | hr
            · rw [hr]
              rcases ih with ⟨r2, hr2⟩ | hr2
              · rw [hr2]
                exact Or.inl ⟨_, rfl⟩
              · rw [hr2]
                exact Or.inr rfl
            · rw [hr]
              exact Or.inr rfl

theorem update_diff_go_ok_isSome (cols : Nat → List String)
    (vals : Nat → List (String × Nat))
    (onLoad : List (Nat × List (Nat × List (String × Nat)))) (upd : List Entity)
    (models : List Nat) (r : List (Nat × List (Nat × List (String × Nat))))
    (h : update_diff_go cols vals onLoad upd models = .ok r) :
    ∀ m ∈ models, (afind m onLoad).isSome := by
  induction models generalizing r with
  | nil =>
      intro m hm
      cases hm
  | cons m0 rest ih =>
      cases hd : afind m0 onLoad with
      | none =>
          simp only [update_diff_go, hd] at h
          cases h
      | some dict =>
          simp only [update_diff_go, hd] at h
          intro m hm
          rcases List.mem_cons.mp hm with rfl | hm2
          · rw [hd]
            rfl
          · by_cases hde : dict = []
            · rw [if_pos hde] at h
              exact ih r h m hm2
            · rw [if_neg hde] at h
              cases hi : update_diff_items cols vals dict
                  (upd.filter (fun e => decide (e.model = m0))) with
              | error e =>
                  rw [hi] at h
                  cases h
              | ok entries =>
                  rw [hi] at h
                  cases hg : update_diff_go cols vals onLoad upd rest with
                  | error e =>
                      rw [hg] at h
                      cases h
                  | ok restR => exact ih restR hg m hm2

/-- C6 counterexample: `update_diff` raises `KeyError` instead of skipping.
First input: one updated entity whose model was never loaded this epoch
(the `on_load[model]` lookup raises). Second input: the model was loaded
but only for a different id (the `load_model[item.id]` lookup raises).
The claim says both should return normally with no entry for the entity. -/
theorem claim_C6_counterexample :
    update_diff testCols testVals [⟨0, 1, 1⟩] [] = .error .keyError ∧
    update_diff testCols testVals [⟨0, 1, 1⟩] [(0, [[("id", 2), ("name", 3)]])]
      = .error .keyError :=
  ⟨rfl, rfl⟩

/-- C6 (amended): `update_diff` is not total on such ledgers — whenever the
updated set contains an entity whose model has no entry in the epoch's
loaded snapshots, it fails with `KeyError` rather than returning a result
that skips the entity. -/
theorem claim_C6_amended_update_diff_raises (cols : Nat → List String)
    (vals : Nat → List (String × Nat)) (upd : List Entity)
    (loaded : List (Nat × List (List (String × Nat)))) (e : Entity)
    (he : e ∈ upd) (hnone : afind e.model loaded = none) :
    update_diff cols vals upd loaded = .error .keyError := by
  have honload : afind e.model (loaded.map (fun p => (p.1, snapDict p.2))) = none := by
    rw [afind_map_snd, hnone]
    rfl
  have hmem : e.model ∈ (upd.map (fun x => x.model)).dedup :=
    List.mem_dedup.mpr (List.mem_map.mpr ⟨e, he, rfl⟩)
  simp only [update_diff]
  rcases update_diff_go_ok_or_err cols vals (loaded.map (fun p => (p.1, snapDict p.2)))
      upd ((upd.map (fun x => x.model)).dedup) with ⟨r, hr⟩ | hr
  · have hs := update_diff_go_ok_isSome cols vals
      (loaded.map (fun p => (p.1, snapDict p.2))) upd
      ((upd.map (fun x => x.model)).dedup) r hr e.model hmem
    rw [honload] at hs
    cases hs
  · exact hr

theorem claim_C6_witness :
    ((⟨0, 1, 1⟩ : Entity) ∈ ([⟨0, 1, 1⟩] : List Entity)) ∧
    afind (Entity.model ⟨0, 1, 1⟩) ([] : List (Nat × List (List (String × Nat)))) = none ∧
    update_diff testCols testVals [⟨0, 1, 1⟩] [] = .error .keyError := by
  refine ⟨by decide, rfl, ?_⟩
  exact claim_C6_amended_update_diff_raises testCols testVals [⟨0, 1, 1⟩] []
    ⟨0, 1, 1⟩ (by decide) rfl

/-- C4 counterexample: create entity A (flush into `new`), commit, mutate A
(A is in the session's dirty set at the next flush), commit again and exit.
The ledger handed to the callback still holds A in `new` and its `update`
set is empty: `session.dirty.difference(tracker.new)` keeps entities
already tracked as new out of `update`, so the claim that the second
commit's ledger contains A in `updated` is false (this is exactly the
behaviour the repository's `test_interceptor_multi_commit_3` asserts). -/
theorem claim_C4_counterexample :
    (scopeRun [(0, "id")] ⟨ResultData.empty, []⟩
        [.flush [] [⟨0, 1, 1⟩] [], .commitMid, .flush [⟨0, 1, 1⟩] [] [],
          .exitCommit]).dispatchLog
      = [⟨[⟨0, 1, 1⟩], [], [], [], [], []⟩] ∧
    (⟨0, 1, 1⟩ : Entity) ∈ (⟨[⟨0, 1, 1⟩], [], [], [], [], []⟩ : ResultData).new ∧
    (⟨0, 1, 1⟩ : Entity) ∉ (⟨[⟨0, 1, 1⟩], [], [], [], [], []⟩ : ResultData).update := by
  decide

/-- C4 (amended): the ledger does accumulate across commits within a scope
epoch — a mid-scope commit neither dispatches nor resets it, and the
exit-commit dispatch hands over the accumulated ledger unreset — but an
entity created in the epoch stays in `new` under later mutation: after a
flush whose dirty set contains A, A is still in `new` and not in `update`,
and that is the ledger the callback receives. -/
theorem claim_C4_amended_accumulation (pks : List (Nat × String)) (s : ScopeState)
    (dirty : List Entity) (A : Entity)
    (hA : A ∈ s.result.new) (hA2 : A ∉ s.result.update) :
    (scopeRun pks s [.flush dirty [] [], .exitCommit]).dispatchLog
        = s.dispatchLog ++ [on_before_flush pks dirty [] [] s.result] ∧
    A ∈ (on_before_flush pks dirty [] [] s.result).new ∧
    A ∉ (on_before_flush pks dirty [] [] s.result).update ∧
    (scopeRun pks s [.flush dirty [] [], .exitCommit]).result
        = on_before_flush pks dirty [] [] s.result ∧
    scopeStep pks s .commitMid = s := by
  have hflush : on_before_flush pks dirty [] [] s.result
      = if dirty = [] then s.result
        else { s.result with
               update := pyAdd s.result.update (pyDiff dirty s.result.new),
               new := pyDiff s.result.new
                   (pyAdd s.result.update (pyDiff dirty s.result.new)) } := rfl
  refine ⟨rfl, ?_, ?_, rfl, rfl⟩
  · rw [hflush]
    by_cases hd : dirty = []
    · rw [if_pos hd]
      exact hA
    · rw [if_neg hd]
      refine (mem_pyDiff _ _ _).mpr ⟨hA, ?_⟩
      intro hmem
      rcases (mem_pyAdd _ _ _).mp hmem with hu | hdn
      · exact hA2 hu
      · exact ((mem_pyDiff _ _ _).mp hdn).2 hA
  · rw [hflush]
    by_cases hd : dirty = []
    · rw [if_pos hd]
      exact hA2
    · rw [if_neg hd]
      intro hmem
      rcases (mem_pyAdd _ _ _).mp hmem with hu | hdn
      · exact hA2 hu
      · exact ((mem_pyDiff _ _ _).mp hdn).2 hA

theorem claim_C4_witness :
    ((⟨0, 1, 1⟩ : Entity) ∈ (⟨[⟨0, 1, 1⟩], [], [], [], [], []⟩ : ResultData).new) ∧
    ((⟨0, 1, 1⟩ : Entity) ∉ (⟨[⟨0, 1, 1⟩], [], [], [], [], []⟩ : ResultData).update) ∧
    (⟨0, 1, 1⟩ : Entity) ∈ (on_before_flush [(0, "id")] [⟨0, 1, 1⟩] [] []
        ⟨[⟨0, 1, 1⟩], [], [], [], [], []⟩).new ∧
    (⟨0, 1, 1⟩ : Entity) ∉ (on_before_flush [(0, "id")] [⟨0, 1, 1⟩] [] []
        ⟨[⟨0, 1, 1⟩], [], [], [], [], []⟩).update := by
  have h := claim_C4_amended_accumulation [(0, "id")]
    ⟨⟨[⟨0, 1, 1⟩], [], [], [], [], []⟩, []⟩ [⟨0, 1, 1⟩] ⟨0, 1, 1⟩
    (by decide) (by decide)
  exact ⟨by decide, by decide, h.2.1, h.2.2.1⟩

/-! ## The delete phase of `_on_before_flush` (claim C3) -/

theorem flushDeleteStep_sub (sdel base : List Entity) (tr : ResultData)
    (m : Nat) (x : Entity) :
    (x ∈ (flushDeleteStep sdel base tr m).new → x ∈ tr.new) ∧
    (x ∈ (flushDeleteStep sdel base tr m).update → x ∈ tr.update) := by
  constructor
  · intro hx
    simp only [flushDeleteStep] at hx
    exact (List.mem_filter.mp hx).1
  · intro hx
    simp only [flushDeleteStep] at hx
    exact (List.mem_filter.mp hx).1

theorem flushFold_sub (sdel base : List Entity) (l : List Nat)
    (tr : ResultData) (x : Entity) :
    (x ∈ (l.foldl (flushDeleteStep sdel base) tr).new → x ∈ tr.new) ∧
    (x ∈ (l.foldl (flushDeleteStep sdel base) tr).update → x ∈ tr.update) := by
  induction l generalizing tr with
  | nil => exact ⟨id, id⟩
  | cons m rest ih =>
      constructor
      · intro hx
        rw [List.foldl_cons] at hx
        exact (flushDeleteStep_sub sdel base tr m x).1 ((ih _).1 hx)
      · intro hx
        rw [List.foldl_cons] at hx
        exact (flushDeleteStep_sub sdel base tr m x).2 ((ih _).2 hx)

theorem flushDeleteStep_removes (sdel base : List Entity) (tr : ResultData)
    (x : Entity)
    (hpk : x.pkValue ∈ (sdel.filter (fun e => decide (e.model = x.model))).map
      Entity.pkValue) :
    x ∉ (flushDeleteStep sdel base tr x.model).new ∧
    x ∉ (flushDeleteStep sdel base tr x.model).update := by
  constructor
  · intro hx
    simp only [flushDeleteStep] at hx
    have hcond := (List.mem_filter.mp hx).2
    rw [decide_eq_true_iff] at hcond
    exact hcond ⟨rfl, hpk⟩
  · intro hx
    simp only [flushDeleteStep] at hx
    have hcond := (List.mem_filter.mp hx).2
    rw [decide_eq_true_iff] at hcond
    exact hcond ⟨rfl, hpk⟩

theorem flushFold_purges (sdel base : List Entity) (l : List Nat)
    (tr : ResultData) (x : Entity) (hm : x.model ∈ l)
    (hpk : x.pkValue ∈ (sdel.filter (fun e => decide (e.model = x.model))).map
      Entity.pkValue) :
    x ∉ (l.foldl (flushDeleteStep sdel base) tr).new ∧
    x ∉ (l.foldl (flushDeleteStep sdel base) tr).update := by
  induction l generalizing tr with
  | nil => cases hm
  | cons m rest ih =>
      rcases List.mem_cons.mp hm with heq | hmr
      · subst heq
        constructor
        · intro hx
          rw [List.foldl_cons] at hx
          exact (flushDeleteStep_removes sdel base tr x hpk).1
            ((flushFold_sub sdel base rest _ x).1 hx)
        · intro hx
          rw [List.foldl_cons] at hx
          exact (flushDeleteStep_removes sdel base tr x hpk).2
            ((flushFold_sub sdel base rest _ x).2 hx)
      · constructor
        · intro hx
          rw [List.foldl_cons] at hx
          exact (ih _ hmr).1 hx
        · intro hx
          rw [List.foldl_cons] at hx
          exact (ih _ hmr).2 hx

theorem flushFold_delete_other (sdel base : List Entity) (l : List Nat)
    (tr : ResultData) (m : Nat) (hm : m ∉ l) :
    afind m (l.foldl (flushDeleteStep sdel base) tr).delete = afind m tr.delete := by
  induction l generalizing tr with
  | nil => rfl
  | cons m0 rest ih =>
      rw [List.foldl_cons]
      have hne : m ≠ m0 := fun hh => hm (hh ▸ List.mem_cons_self _ _)
      rw [ih _ (fun hh => hm (List.mem_cons_of_mem _ hh))]
      simp only [flushDeleteStep]
      exact afind_aput_ne m0 m _ tr.delete hne

theorem flushFold_delete_mem (sdel base : List Entity) (l : List Nat)
    (tr : ResultData) (m pk : Nat) (hnd : l.Nodup) (hm : m ∈ l)
    (hpknew : pk ∈ (base.filter (fun e => decide (e.model = m))).map Entity.pkValue)
    (hmem : pk ∈ (afind m (l.foldl (flushDeleteStep sdel base) tr).delete).getD []) :
    pk ∈ (afind m tr.delete).getD [] := by
  induction l generalizing tr with
  | nil => cases hm
  | cons m0 rest ih =>
      rw [List.foldl_cons] at hmem
      rcases List.mem_cons.mp hm with heq | hmr
      · subst heq
        have hrest : m ∉ rest := (List.nodup_cons.mp hnd).1
        rw [flushFold_delete_other sdel base rest _ m hrest] at hmem
        simp only [flushDeleteStep] at hmem
        rw [afind_aput_self] at hmem
        simp only [Option.getD_some] at hmem
        rcases (mem_pyAdd _ _ _).mp hmem with hold | hnew2
        · exact hold
        · exact absurd hpknew ((mem_pyDiff _ _ _).mp hnew2).2
      · have hne : m ≠ m0 := by
          rintro rfl
          exact (List.nodup_cons.mp hnd).1 hmr
        have hstep := ih (flushDeleteStep sdel base tr m0)
          (List.nodup_cons.mp hnd).2 hmr hmem
        simp only [flushDeleteStep] at hstep
        rw [afind_aput_ne m0 m _ tr.delete hne] at hstep
        exact hstep

theorem mem_flushPre_new (dirty snew : List Entity) (t : ResultData) (e : Entity)
    (hnew : e ∈ snew ∨ (e ∈ t.new ∧ e ∉ t.update)) :
    e ∈ (flushPre dirty snew t).new := by
  rcases hnew with hs | ⟨hn, hu⟩
  · have hne : snew ≠ [] := List.ne_nil_of_mem hs
    simp only [flushPre, if_neg hne]
    exact (mem_pyAdd _ _ _).mpr (Or.inr hs)
  · have h1 : e ∈ (if dirty = [] then t
        else { t with
          update := pyAdd t.update (pyDiff dirty t.new),
          new := pyDiff t.new (pyAdd t.update (pyDiff dirty t.new)) }).new := by
      by_cases hd : dirty = []
      · rw [if_pos hd]
        exact hn
      · rw [if_neg hd]
        refine (mem_pyDiff _ _ _).mpr ⟨hn, ?_⟩
        intro hmem
        rcases (mem_pyAdd _ _ _).mp hmem with hu2 | hdn
        · exact hu hu2
        · exact ((mem_pyDiff _ _ _).mp hdn).2 hn
    simp only [flushPre]
    by_cases hsn : snew = []
    · rw [if_pos hsn]
      exact h1
    · rw [if_neg hsn]
      exact (mem_pyAdd _ _ _).mpr (Or.inl h1)

theorem flushPre_delete_eq (dirty snew : List Entity) (t : ResultData) :
    (flushPre dirty snew t).delete = t.delete := by
  simp only [flushPre]
  by_cases hd : dirty = [] <;> by_cases hsn : snew = [] <;> simp [hd, hsn]

theorem flush_delete_phase (pks : List (Nat × String)) (sdeleted : List Entity)
    (t2 : ResultData) (e : Entity) (pkName : String)
    (hdel : e ∈ sdeleted) (hreg : afind e.model pks = some pkName)
    (h2 : e ∈ t2.new) :
    e ∉ ((((sdeleted.map (fun x => x.model)).dedup).filter
        (fun m => (afind m pks).isSome)).foldl
        (flushDeleteStep sdeleted t2.new) t2).new ∧
    e ∉ ((((sdeleted.map (fun x => x.model)).dedup).filter
        (fun m => (afind m pks).isSome)).foldl
        (flushDeleteStep sdeleted t2.new) t2).update ∧
    (e.pk ∈ (afind e.model ((((sdeleted.map (fun x => x.model)).dedup).filter
        (fun m => (afind m pks).isSome)).foldl
        (flushDeleteStep sdeleted t2.new) t2).delete).getD [] →
      e.pk ∈ (afind e.model t2.delete).getD []) := by
  have hmdl : e.model ∈ ((sdeleted.map (fun x => x.model)).dedup).filter
      (fun m => (afind m pks).isSome) := by
    rw [List.mem_filter]
    refine ⟨List.mem_dedup.mpr (List.mem_map.mpr ⟨e, hdel, rfl⟩), ?_⟩
    rw [hreg]
    rfl
  have hnd : (((sdeleted.map (fun x => x.model)).dedup).filter
      (fun m => (afind m pks).isSome)).Nodup := (List.nodup_dedup _).filter _
  have hpk : e.pkValue ∈ (sdeleted.filter
      (fun x => decide (x.model = e.model))).map Entity.pkValue :=
    List.mem_map.mpr ⟨e, List.mem_filter.mpr ⟨hdel, by simp⟩, rfl⟩
  have hpknew : e.pk ∈ (t2.new.filter
      (fun x => decide (x.model = e.model))).map Entity.pkValue :=
    List.mem_map.mpr ⟨e, List.mem_filter.mpr ⟨h2, by simp⟩, rfl⟩
  obtain ⟨ha, hb⟩ := flushFold_purges sdeleted t2.new _ t2 e hmdl hpk
  refine ⟨ha, hb, ?_⟩
  intro hmem
  exact flushFold_delete_mem sdeleted t2.new _ t2 e.model e.pk hnd hmdl hpknew hmem

/-- C3 counterexample: within one epoch, flush a delete of identity
(model 0, pk 5), then flush the creation of a fresh entity with the same
pk 5. The ledger now holds the new entity in `new` while pk 5 is still in
`delete[model]` — the claimed point-wise mutual exclusion of `new` and
`deleted` does not hold at every point of an epoch. -/
theorem claim_C3_counterexample :
    ¬ disjointNewDelete
      (on_before_flush [(0, "id")] [] [⟨0, 2, 5⟩] []
        (on_before_flush [(0, "id")] [] [] [⟨0, 1, 5⟩] ResultData.empty)) := by
  decide

/-- C3 (amended): the create-then-delete cancellation half of the claim
holds — for an entity of a registered model that the epoch tracks as
created (it is in the flush's pending-new set, or already in the ledger's
`new` and not in `update`) and that is deleted in this flush, the
before-flush hook purges it from `new` and `update` and does not add its
pk to `delete` (any pk present afterwards was already there) — but the
point-wise `new`/`deleted` exclusion fails in the other direction, as the
counterexample shows. -/
theorem claim_C3_amended_create_then_delete (pks : List (Nat × String))
    (dirty snew sdeleted : List Entity) (t : ResultData) (e : Entity)
    (pkName : String)
    (hdel : e ∈ sdeleted) (hreg : afind e.model pks = some pkName)
    (hnew : e ∈ snew ∨ (e ∈ t.new ∧ e ∉ t.update)) :
    e ∉ (on_before_flush pks dirty snew sdeleted t).new ∧
    e ∉ (on_before_flush pks dirty snew sdeleted t).update ∧
    (e.pk ∈ (afind e.model (on_before_flush pks dirty snew sdeleted t).delete).getD []
      → e.pk ∈ (afind e.model t.delete).getD []) := by
  have hsne : sdeleted ≠ [] := List.ne_nil_of_mem hdel
  have h2 : e ∈ (flushPre dirty snew t).new := mem_flushPre_new dirty snew t e hnew
  have hph := flush_delete_phase pks sdeleted (flushPre dirty snew t) e pkName
    hdel hreg h2
  simp only [on_before_flush, if_neg hsne]
  refine ⟨hph.1, hph.2.1, fun hmem => ?_⟩
  have hres := hph.2.2 hmem
  rwa [flushPre_delete_eq] at hres

theorem claim_C3_witness :
    ((⟨0, 3, 7⟩ : Entity) ∈ ([⟨0, 3, 7⟩] : List Entity)) ∧
    afind (Entity.model ⟨0, 3, 7⟩) [(0, "id")] = some "id" ∧
    (⟨0, 3, 7⟩ : Entity) ∉ (on_before_flush [(0, "id")] [] [⟨0, 3, 7⟩] [⟨0, 3, 7⟩]
        ResultData.empty).new ∧
    (⟨0, 3, 7⟩ : Entity) ∉ (on_before_flush [(0, "id")] [] [⟨0, 3, 7⟩] [⟨0, 3, 7⟩]
        ResultData.empty).update ∧
    (Entity.pk ⟨0, 3, 7⟩ ∈ (afind (Entity.model ⟨0, 3, 7⟩)
        (on_before_flush [(0, "id")] [] [⟨0, 3, 7⟩] [⟨0, 3, 7⟩]
          ResultData.empty).delete).getD [] →
      Entity.pk ⟨0, 3, 7⟩ ∈ (afind (Entity.model ⟨0, 3, 7⟩)
        ResultData.empty.delete).getD []) := by
  have h := claim_C3_amended_create_then_delete [(0, "id")] [] [⟨0, 3, 7⟩]
    [⟨0, 3, 7⟩] ResultData.empty ⟨0, 3, 7⟩ "id" (by decide) (by decide)
    (Or.inl (by decide))
  exact ⟨by decide, by decide, h.1, h.2.1, h.2.2⟩

end JSAlchemy
